import Mathlib

/-!
# Verification of the closed-loop feedback subsystem (`_feedback.py`)

Shallow embedding of `src/slmsuite/holography/algorithms/_feedback.py`:
the `FeedbackHologram` class with its device-binding resolution
(`__init__`), the camera-to-computational coordinate transform
(`ijcam_to_knmslm`), the two-level measurement cache (`measure`), the
target update (`update_target`) and the feedback weight update
(`_update_weights`).

Images are modelled as real-valued functions over abstract finite index
types (`ιc` for the camera grid, `ιk` for the computational grid).
External collaborators that the source file calls but whose code is not
part of the excerpt (`scipy`/`cupy` resampling and filtering, the
`toolbox` conversion helpers, and the base `Hologram` machinery) are
modelled as parameters gathered in `Externals`, or — where the spec
pins their behavior down — as concrete definitions marked
`Modelled from the spec`.
-/

namespace Slmsuite

/-- Error taxonomy of the spec (section 7): `ConfigurationError` is the
`ValueError` raised by `__init__` when neither a CameraSLM nor an SLM is
recognized; `NotCalibratedError` is the assertion failure guarding
`ijcam_to_knmslm`; `OutOfRangeError` is the `ValueError` raised when a
resampled image carries zero total power. -/
inductive HoloError where
  | configurationError
  | notCalibratedError
  | outOfRangeError
  deriving DecidableEq, Repr

/-- The Fourier calibration affine map `{M, b, a}` consumed by
`ijcam_to_knmslm` (read-only input, owned by the bound controller). -/
structure FourierCalibration where
  M : Matrix (Fin 2) (Fin 2) ℝ
  b : Fin 2 → ℝ
  a : Fin 2 → ℝ

/-- A bare SLM device: exposes `_get_source_amplitude()` and `shape`. -/
structure SLMDevice (ιs : Type) where
  sourceAmplitude : ιs → ℝ
  shape : ℕ × ℕ

/-- A composite CameraSLM controller: bound device, camera shape, and an
optional Fourier calibration. -/
structure FourierSLM (ιs : Type) where
  slm : SLMDevice ιs
  camShape : ℕ × ℕ
  fourier_calibration : Option FourierCalibration

/-- The duck-typed `cameraslm` argument of `__init__`: interpretation as
a composite controller succeeds when `asFourierSLM` is populated,
interpretation as a bare device succeeds when `asSLM` is populated
(mirrors the two `try` probes of lines 57–70). -/
structure BoundRef (ιs : Type) where
  asFourierSLM : Option (FourierSLM ιs)
  asSLM : Option (SLMDevice ιs)

/-- External collaborators of the feedback core, abstracted as functions.

Each field stands for a callee of `_feedback.py` whose implementation is
outside the excerpt; the feedback core only forwards arguments to them. -/
structure Externals (ιc ιk : Type) where
  /-- Modelled from the spec: `toolbox.convert_vector (v, "knm", "kxy", slm, shape)`
  (the `"knm"` to `"kxy"` basis conversion of the toolbox module, which is
  not part of the excerpt), as a function of the grid shape and the vector. -/
  convert_vector : ℕ × ℕ → (Fin 2 → ℝ) → Fin 2 → ℝ
  /-- Modelled from the spec: `cp_affine_transform` — resampling with the
  composite affine map `(M, b)` at a given interpolation order; the library
  routine is external to the repository. -/
  affine_transform : Matrix (Fin 2) (Fin 2) ℝ → (Fin 2 → ℝ) → ℕ → (ιc → ℝ) → ιk → ℝ
  /-- Modelled from the spec: `sp_gaussian_filter` applied with radius `r`
  and `output=img` (an in-place Gaussian blur; the filter itself is external). -/
  gaussian_filter : ℝ → (ιc → ℝ) → ιc → ℝ
  /-- Modelled from the spec: `Hologram._update_weights_generic(weights, feed, target)`
  of the base optimizer (not in the excerpt). -/
  update_weights_generic : (ιk → ℝ) → (ιk → ℝ) → (ιk → ℝ) → ιk → ℝ
  /-- Modelled from the spec: `Hologram.reset_weights()` — reinitializes the
  weight array from the computational target (base optimizer, external). -/
  reset_weights : (ιk → ℝ) → ιk → ℝ
  /-- Modelled from the spec: the camera-corner computation of `__init__`
  (lines 92–101), whose `ijcam_to_kxyslm` / `convert_vector` calls are
  external: four camera corners mapped into `"knm"` space, first point
  repeated (five points in all). -/
  corner_points : ℕ × ℕ → Fin 5 → Fin 2 → ℝ

/-- The state of a `FeedbackHologram` instance: the fields of the class
that `_feedback.py` reads or writes.  `flags_blur_ij` and
`flags_feedback` are the `"blur_ij"` and `"feedback"` entries of
`self.flags`; `amp_ff` is the simulated far-field amplitude owned by the
base optimizer. -/
structure FeedbackHologram (ιc ιk ιs : Type) where
  cameraslm : Option (FourierSLM ιs)
  shape : ℕ × ℕ
  amp : Option (ιs → ℝ)
  slm_shape : Option (ℕ × ℕ)
  img_ij : Option (ιc → ℝ)
  img_knm : Option (ιk → ℝ)
  target : ιk → ℝ
  target_ij : Option (ιc → ℝ)
  weights : ιk → ℝ
  cam_points : Option (Fin 5 → Fin 2 → ℝ)
  cam_shape : Option (ℕ × ℕ)
  flags_blur_ij : Option ℝ
  flags_feedback : String
  amp_ff : ιk → ℝ

variable {ιc ιk ιs : Type} [Fintype ιk]

/-- Modelled from the spec: `Hologram._norm` of the base optimizer (not in
the excerpt) — "the chosen norm over the whole grid", the amplitude-domain
norm whose square is the total power: `sqrt` of the sum of squares. -/
noncomputable def holNorm (x : ιk → ℝ) : ℝ :=
  Real.sqrt (∑ i, (x i) ^ 2)

/-- `np.flip` on the 2×2 index range: axis flip `(0 ↦ 1, 1 ↦ 0)`. -/
def finFlip : Fin 2 → Fin 2 := fun i => if i = 0 then 1 else 0

/-- `-toolbox.format_2vectors(np.flip(np.squeeze(self.shape)) / 2)`
(line 152): the flipped half-shape, negated. -/
noncomputable def shapeFlipHalfNeg (shape : ℕ × ℕ) : Fin 2 → ℝ :=
  fun i => -((if i = 0 then (shape.2 : ℝ) else (shape.1 : ℝ)) / 2)

/-- Lines 146–151: `conversion = convert_vector((1,1)) - convert_vector((0,0))`. -/
noncomputable def knm_conversion (E : Externals ιc ιk) (shape : ℕ × ℕ) : Fin 2 → ℝ :=
  fun i => E.convert_vector shape (fun _ => 1) i - E.convert_vector shape (fun _ => 0) i

/-- Line 151: `M1 = np.diag(np.squeeze(conversion))`. -/
noncomputable def transform_M1 (E : Externals ιc ιk) (shape : ℕ × ℕ) :
    Matrix (Fin 2) (Fin 2) ℝ :=
  Matrix.diagonal (knm_conversion E shape)

/-- Line 152: `b1 = M1 @ (-flip(shape)/2)`. -/
noncomputable def transform_b1 (E : Externals ιc ιk) (shape : ℕ × ℕ) : Fin 2 → ℝ :=
  (transform_M1 E shape).mulVec (shapeFlipHalfNeg shape)

/-- Lines 155–158: `b2 = calibration["b"] - M2 @ calibration["a"]`. -/
noncomputable def transform_b2 (cal : FourierCalibration) : Fin 2 → ℝ :=
  fun i => cal.b i - cal.M.mulVec cal.a i

/-- Line 161: the composite matrix `M = flip(flip(M2 @ M1, 0), 1)`. -/
noncomputable def composite_M (E : Externals ιc ιk) (shape : ℕ × ℕ)
    (cal : FourierCalibration) : Matrix (Fin 2) (Fin 2) ℝ :=
  fun i j => (cal.M * transform_M1 E shape) (finFlip i) (finFlip j)

/-- Line 162: the composite offset `b = flip(M2 @ b1 + b2)`. -/
noncomputable def composite_b (E : Externals ιc ιk) (shape : ℕ × ℕ)
    (cal : FourierCalibration) : Fin 2 → ℝ :=
  fun i => (cal.M.mulVec (transform_b1 E shape) + transform_b2 cal) (finFlip i)

/-- Lines 165–169: the effective blur radius — the `blur_ij` argument when
given, else the `"blur_ij"` flag, else zero. -/
noncomputable def effective_blur (st : FeedbackHologram ιc ιk ιs)
    (blur_ij : Option ℝ) : ℝ :=
  blur_ij.getD (st.flags_blur_ij.getD 0)

/-- Lines 172–173: the input image after the optional in-place Gaussian
blur (`output=img`). -/
noncomputable def blurred (E : Externals ιc ιk) (st : FeedbackHologram ιc ιk ιs)
    (img : ιc → ℝ) (blur_ij : Option ℝ) : ιc → ℝ :=
  if 0 < effective_blur st blur_ij then
    E.gaussian_filter (effective_blur st blur_ij) img
  else img

/-- Lines 175–194: magnitude of the (blurred) input, resampled through the
composite affine map at the given order, magnitude again. -/
noncomputable def resampled (E : Externals ιc ιk) (st : FeedbackHologram ιc ιk ιs)
    (cal : FourierCalibration) (img : ιc → ℝ) (blur_ij : Option ℝ)
    (order : ℕ) : ιk → ℝ :=
  fun i =>
    |E.affine_transform (composite_M E st.shape cal) (composite_b E st.shape cal)
      order (fun j => |blurred E st img blur_ij j|) i|

/-- Result of one `ijcam_to_knmslm` call: `out` is the contents of the
output location after the call (the caller's `out` buffer when one was
passed), `imgAfter` the contents of the caller's input array after the
call (the in-place blur mutates it), `err` the exception raised, if any. -/
structure TransformResult (ιc ιk : Type) where
  out : ιk → ℝ
  imgAfter : ιc → ℝ
  err : Option HoloError

/-- `FeedbackHologram.ijcam_to_knmslm` (lines 113–204).  The two
assertions of lines 142–143 surface as `notCalibratedError`; the
zero-power `ValueError` of lines 198–202 surfaces as `outOfRangeError`,
raised only after the output buffer has been scaled by `1 / norm`
(line 196 precedes line 198). -/
noncomputable def ijcam_to_knmslm (E : Externals ιc ιk)
    (st : FeedbackHologram ιc ιk ιs) (img : ιc → ℝ) (out0 : ιk → ℝ)
    (blur_ij : Option ℝ) (order : ℕ) : TransformResult ιc ιk :=
  match st.cameraslm with
  | none => ⟨out0, img, some .notCalibratedError⟩
  | some cslm =>
    match cslm.fourier_calibration with
    | none => ⟨out0, img, some .notCalibratedError⟩
    | some cal =>
      let t2 := resampled E st cal img blur_ij order
      let nrm := holNorm t2
      let scaled : ιk → ℝ := fun i => t2 i * (1 / nrm)
      if nrm = 0 then ⟨scaled, blurred E st img blur_ij, some .outOfRangeError⟩
      else ⟨scaled, blurred E st img blur_ij, none⟩

/-- `FeedbackHologram.measure` (lines 207–240).  Device I/O is abstracted:
`frame` is the intensity image `cam.get_image()` would return, and the
second component of the result counts how many write-settle-flush-capture
round trips the call performed (0 or 1).  The third component is the
exception propagated out of `ijcam_to_knmslm`, if any; in that case the
state records the partial mutations Python leaves behind (line 228 has
already stored the raw frame in `img_ij`, and an existing `img_knm`
buffer passed as `out=` has been overwritten in place). -/
noncomputable def measure (E : Externals ιc ιk) (st : FeedbackHologram ιc ιk ιs)
    (frame : ιc → ℝ) (basis : String) :
    FeedbackHologram ιc ιk ιs × ℕ × Option HoloError :=
  match st.img_ij with
  | none =>
    -- slm.write(..., settle=True); cam.flush(); img_ij = cam.get_image()
    if basis = "knm" then
      let r := ijcam_to_knmslm E st frame (st.img_knm.getD (fun _ => 0)) none 3
      match r.err with
      | some e =>
        ({ st with img_ij := some r.imgAfter,
                   img_knm := st.img_knm.map (fun _ => r.out) }, 1, some e)
      | none =>
        ({ st with img_ij := some (fun i => Real.sqrt (r.imgAfter i)),
                   img_knm := some (fun i => Real.sqrt (r.out i)) }, 1, none)
    else
      ({ st with img_ij := some (fun i => Real.sqrt (frame i)),
                 img_knm := none }, 1, none)
  | some img =>
    if basis = "knm" then
      match st.img_knm with
      | none =>
        let r := ijcam_to_knmslm E st (fun i => (img i) ^ 2) (fun _ => 0) none 3
        match r.err with
        | some e => (st, 0, some e)
        | none =>
          ({ st with img_knm := some (fun i => Real.sqrt (r.out i)) }, 0, none)
      | some _ => (st, 0, none)
    else (st, 0, none)

/-- `FeedbackHologram.update_target` (lines 243–251, `plot` omitted):
transform `new_target` with interpolation order 0 into the persistent
`self.target` buffer, then reset the weights when requested.  On a
zero-power transform the scaled junk has already been written into
`self.target` when the exception propagates, and the weight reset is
skipped. -/
noncomputable def update_target (E : Externals ιc ιk) (st : FeedbackHologram ιc ιk ιs)
    (new_target : ιc → ℝ) (reset_weights : Bool) :
    FeedbackHologram ιc ιk ιs × Option HoloError :=
  let r := ijcam_to_knmslm E st new_target st.target none 0
  match r.err with
  | some e => ({ st with target := r.out }, some e)
  | none =>
    let st1 := { st with target := r.out }
    if reset_weights then ({ st1 with weights := E.reset_weights r.out }, none)
    else (st1, none)

/-- `FeedbackHologram._update_weights` (lines 282–293).  Dispatches on the
`"feedback"` flag: `"computational"` updates from the simulated far-field
amplitude, `"experimental"` measures in the `"knm"` basis first; any other
value falls through both branches and the method returns without doing
anything.  The capture count of the inner `measure` call is threaded
through. -/
noncomputable def _update_weights (E : Externals ιc ιk)
    (st : FeedbackHologram ιc ιk ιs) (frame : ιc → ℝ) :
    FeedbackHologram ιc ιk ιs × ℕ × Option HoloError :=
  let feedback := st.flags_feedback
  if feedback = "computational" then
    ({ st with weights := E.update_weights_generic st.weights st.amp_ff st.target },
      0, none)
  else if feedback = "experimental" then
    let m := measure E st frame "knm"
    match m.2.2 with
    | some e => (m.1, m.2.1, some e)
    | none =>
      match m.1.img_knm with
      | some k =>
        ({ m.1 with weights := E.update_weights_generic m.1.weights k m.1.target },
          m.2.1, none)
      | none => (m.1, m.2.1, none)  -- unreachable: measure "knm" fills img_knm
  else (st, 0, none)

/-- `FeedbackHologram.__init__` (lines 32–110).  Resolution of the
`cameraslm` argument: try the composite interpretation first
(`cameraslm.slm._get_source_amplitude()`), fall back to the bare-device
interpretation clearing `self.cameraslm`, raise `ValueError`
(`configurationError`) when neither probe succeeds.  `target0`,
`weights0` and `amp_ff0` stand for the fields the base `Hologram`
constructor initializes.  When a calibration is present the camera
corners are computed and, if `target_ij` was given, the target is
transformed (`update_target` with `reset_weights=True`), whose exception
propagates out of the constructor. -/
noncomputable def init (E : Externals ιc ιk) (shape : ℕ × ℕ)
    (target_ij : Option (ιc → ℝ)) (cameraslm : Option (BoundRef ιs))
    (amp_kwarg : Option (ιs → ℝ)) (target0 weights0 amp_ff0 : ιk → ℝ)
    (flags_blur : Option ℝ) (flags_feedback : String) :
    Except HoloError (FeedbackHologram ιc ιk ιs) :=
  let base : Except HoloError
      (Option (FourierSLM ιs) × Option (ιs → ℝ) × Option (ℕ × ℕ)) :=
    match cameraslm with
    | some ref =>
      match ref.asFourierSLM with
      | some fslm => .ok (some fslm, some fslm.slm.sourceAmplitude, some fslm.slm.shape)
      | none =>
        match ref.asSLM with
        | some s => .ok (none, some s.sourceAmplitude, some s.shape)
        | none => .error .configurationError
    | none => .ok (none, amp_kwarg, none)
  match base with
  | .error e => .error e
  | .ok (cslm, amp, slm_shape) =>
    let st0 : FeedbackHologram ιc ιk ιs :=
      { cameraslm := cslm
        shape := shape
        amp := amp
        slm_shape := slm_shape
        img_ij := none
        img_knm := none
        target := target0
        target_ij := target_ij
        weights := weights0
        cam_points := none
        cam_shape := none
        flags_blur_ij := flags_blur
        flags_feedback := flags_feedback
        amp_ff := amp_ff0 }
    match cslm with
    | some fslm =>
      match fslm.fourier_calibration with
      | some _ =>
        let st1 := { st0 with cam_points := some (E.corner_points fslm.camShape),
                              cam_shape := some fslm.camShape }
        match target_ij with
        | some t =>
          let u := update_target E st1 t true
          match u.2 with
          | some e => .error e
          | none => .ok u.1
        | none => .ok st1
      | none => .ok st0
    | none => .ok st0

/-- A sequence of `measure` calls with no external cache invalidation in
between: fold over the requested bases (each with the frame the camera
would deliver were a capture to happen), accumulating the number of
device captures performed. -/
noncomputable def measure_run (E : Externals ιc ιk) :
    FeedbackHologram ιc ιk ιs → List (String × (ιc → ℝ)) →
      FeedbackHologram ιc ιk ιs × ℕ
  | st, [] => (st, 0)
  | st, (basis, frame) :: rest =>
    let m := measure E st frame basis
    let r := measure_run E m.1 rest
    (r.1, m.2.1 + r.2)

/-! ## A concrete instantiation

A small concrete playground (2-pixel camera, 2-pixel grid) used by the
witnesses and counterexamples: the resampler passes the image through
unchanged and the blur replaces pixel 1 with the average of the two
pixels (a power-preserving smoothing, as a Gaussian blur is). -/

noncomputable def wE : Externals (Fin 2) (Fin 2) where
  convert_vector := fun _ v => v
  affine_transform := fun _ _ _ img => img
  gaussian_filter := fun _ img => fun i => if i = 0 then img 0 else (img 0 + img 1) / 2
  update_weights_generic := fun w _ _ => w
  reset_weights := fun t => t
  corner_points := fun _ _ _ => 0

noncomputable def wCal : FourierCalibration := ⟨1, 0, 0⟩

noncomputable def wSlm : SLMDevice (Fin 1) := ⟨fun _ => 1, (2, 2)⟩

noncomputable def wFslm : FourierSLM (Fin 1) := ⟨wSlm, (2, 2), some wCal⟩

noncomputable def wFslmNoCal : FourierSLM (Fin 1) := ⟨wSlm, (2, 2), none⟩

/-- A calibrated instance with empty caches and no blur flag. -/
noncomputable def wStCal : FeedbackHologram (Fin 2) (Fin 2) (Fin 1) where
  cameraslm := some wFslm
  shape := (2, 2)
  amp := none
  slm_shape := some (2, 2)
  img_ij := none
  img_knm := none
  target := fun _ => 1
  target_ij := none
  weights := fun _ => 1
  cam_points := none
  cam_shape := none
  flags_blur_ij := none
  flags_feedback := "experimental"
  amp_ff := fun _ => 1

/-- The same instance with feedback fully disabled (bare device). -/
noncomputable def wStNoCam : FeedbackHologram (Fin 2) (Fin 2) (Fin 1) :=
  { wStCal with cameraslm := none }

/-- The calibrated instance with a `"blur_ij"` flag of 1. -/
noncomputable def wStBlur : FeedbackHologram (Fin 2) (Fin 2) (Fin 1) :=
  { wStCal with flags_blur_ij := some 1 }

/-! ## Basic lemmas -/

theorem holNorm_nonneg (x : ιk → ℝ) : 0 ≤ holNorm x :=
  Real.sqrt_nonneg _

theorem holNorm_mul_const (x : ιk → ℝ) (c : ℝ) (hc : 0 ≤ c) :
    holNorm (fun i => x i * c) = holNorm x * c := by
  unfold holNorm
  have h1 : ∑ i, (x i * c) ^ 2 = (∑ i, (x i) ^ 2) * c ^ 2 := by
    rw [Finset.sum_mul]
    refine Finset.sum_congr rfl ?_
    intro i _
    ring
  rw [h1, Real.sqrt_mul (by positivity), Real.sqrt_sq hc]

/-- On a calibrated instance the caller's input array ends up holding the
(possibly) blurred image, whatever the outcome of the normalization. -/
theorem ijcam_imgAfter_eq (E : Externals ιc ιk) (st : FeedbackHologram ιc ιk ιs)
    (img : ιc → ℝ) (out0 : ιk → ℝ) (blur_ij : Option ℝ) (order : ℕ)
    (c : FourierSLM ιs) (cal : FourierCalibration)
    (hc : st.cameraslm = some c) (hcal : c.fourier_calibration = some cal) :
    (ijcam_to_knmslm E st img out0 blur_ij order).imgAfter
      = blurred E st img blur_ij := by
  simp only [ijcam_to_knmslm, hc, hcal]
  by_cases h : holNorm (resampled E st cal img blur_ij order) = 0 <;> simp [h]

/-- On a calibrated instance the output location ends up holding the
resampled image scaled by `1 / norm`, whatever the outcome. -/
theorem ijcam_out_eq (E : Externals ιc ιk) (st : FeedbackHologram ιc ιk ιs)
    (img : ιc → ℝ) (out0 : ιk → ℝ) (blur_ij : Option ℝ) (order : ℕ)
    (c : FourierSLM ιs) (cal : FourierCalibration)
    (hc : st.cameraslm = some c) (hcal : c.fourier_calibration = some cal) :
    (ijcam_to_knmslm E st img out0 blur_ij order).out
      = fun i => resampled E st cal img blur_ij order i *
          (1 / holNorm (resampled E st cal img blur_ij order)) := by
  simp only [ijcam_to_knmslm, hc, hcal]
  by_cases h : holNorm (resampled E st cal img blur_ij order) = 0 <;> simp [h]

/-- On a calibrated instance the call raises `outOfRangeError` exactly
when the resampled image has zero norm. -/
theorem ijcam_err_eq (E : Externals ιc ιk) (st : FeedbackHologram ιc ιk ιs)
    (img : ιc → ℝ) (out0 : ιk → ℝ) (blur_ij : Option ℝ) (order : ℕ)
    (c : FourierSLM ιs) (cal : FourierCalibration)
    (hc : st.cameraslm = some c) (hcal : c.fourier_calibration = some cal) :
    (ijcam_to_knmslm E st img out0 blur_ij order).err
      = if holNorm (resampled E st cal img blur_ij order) = 0
        then some HoloError.outOfRangeError else none := by
  simp only [ijcam_to_knmslm, hc, hcal]
  by_cases h : holNorm (resampled E st cal img blur_ij order) = 0 <;> simp [h]

/-! ## Claim theorems -/

/-- C1: For every camera-basis input image on a calibrated instance,
`ijcam_to_knmslm` either returns an image whose total power (the chosen
norm over the whole grid) equals 1, or — exactly when the resampled
image's total power is zero — fails with `OutOfRangeError`; no other
outcome is possible. -/
theorem ijcam_to_knmslm_power_dichotomy (E : Externals ιc ιk)
    (st : FeedbackHologram ιc ιk ιs) (img : ιc → ℝ) (out0 : ιk → ℝ)
    (blur_ij : Option ℝ) (order : ℕ) (c : FourierSLM ιs) (cal : FourierCalibration)
    (hc : st.cameraslm = some c) (hcal : c.fourier_calibration = some cal) :
    ((ijcam_to_knmslm E st img out0 blur_ij order).err = none
        ∧ holNorm (ijcam_to_knmslm E st img out0 blur_ij order).out = 1
        ∧ holNorm (resampled E st cal img blur_ij order) ≠ 0)
    ∨ ((ijcam_to_knmslm E st img out0 blur_ij order).err
          = some HoloError.outOfRangeError
        ∧ holNorm (resampled E st cal img blur_ij order) = 0) := by
  rw [ijcam_err_eq E st img out0 blur_ij order c cal hc hcal,
      ijcam_out_eq E st img out0 blur_ij order c cal hc hcal]
  by_cases h : holNorm (resampled E st cal img blur_ij order) = 0
  · right
    simp [h]
  · left
    refine ⟨by simp [h], ?_, h⟩
    rw [holNorm_mul_const _ _ (one_div_nonneg.mpr (holNorm_nonneg _))]
    rw [mul_one_div, div_self h]

/-- Witness for C1 at a concrete calibrated instance. -/
theorem ijcam_to_knmslm_power_dichotomy_witness :
    ((ijcam_to_knmslm wE wStCal (fun _ => (1 : ℝ)) (fun _ => 0) none 3).err = none
        ∧ holNorm (ijcam_to_knmslm wE wStCal (fun _ => (1 : ℝ)) (fun _ => 0) none 3).out = 1
        ∧ holNorm (resampled wE wStCal wCal (fun _ => (1 : ℝ)) none 3) ≠ 0)
    ∨ ((ijcam_to_knmslm wE wStCal (fun _ => (1 : ℝ)) (fun _ => 0) none 3).err
          = some HoloError.outOfRangeError
        ∧ holNorm (resampled wE wStCal wCal (fun _ => (1 : ℝ)) none 3) = 0) :=
  ijcam_to_knmslm_power_dichotomy wE wStCal _ _ none 3 wFslm wCal rfl rfl

/-- C7: `ijcam_to_knmslm` on an instance that is not feedback-capable
(`cameraslm` is `None`) or whose Fourier calibration is absent fails with
`NotCalibratedError` (the assertions of lines 142–143). -/
theorem ijcam_to_knmslm_not_calibrated (E : Externals ιc ιk)
    (st : FeedbackHologram ιc ιk ιs) (img : ιc → ℝ) (out0 : ιk → ℝ)
    (blur_ij : Option ℝ) (order : ℕ)
    (h : st.cameraslm = none
        ∨ ∃ c, st.cameraslm = some c ∧ c.fourier_calibration = none) :
    (ijcam_to_knmslm E st img out0 blur_ij order).err
      = some HoloError.notCalibratedError := by
  rcases h with h | ⟨c, hc, hcal⟩
  · simp only [ijcam_to_knmslm, h]
  · simp only [ijcam_to_knmslm, hc, hcal]

/-- Witness for C7: a bare-device instance (no composite controller). -/
theorem ijcam_to_knmslm_not_calibrated_witness :
    (ijcam_to_knmslm wE wStNoCam (fun _ => (1 : ℝ)) (fun _ => 0) none 3).err
      = some HoloError.notCalibratedError :=
  ijcam_to_knmslm_not_calibrated wE wStNoCam _ _ none 3 (Or.inl rfl)

/-- The concrete camera frame used by witnesses: one bright pixel. -/
noncomputable def wFrame : Fin 2 → ℝ := fun i => if i = 0 then 1 else 0

/-- C10: with a positive effective blur radius, `ijcam_to_knmslm` invokes
the Gaussian filter with the caller's input array as its output
(`output=img`, line 173), so after the call the input array holds the
blurred image; whenever blurring actually alters the image, the input
argument is not left unchanged by the call. -/
theorem ijcam_to_knmslm_blurs_input_in_place (E : Externals ιc ιk)
    (st : FeedbackHologram ιc ιk ιs) (img : ιc → ℝ) (out0 : ιk → ℝ)
    (blur_ij : Option ℝ) (order : ℕ) (c : FourierSLM ιs) (cal : FourierCalibration)
    (hc : st.cameraslm = some c) (hcal : c.fourier_calibration = some cal)
    (hb : 0 < effective_blur st blur_ij) :
    (ijcam_to_knmslm E st img out0 blur_ij order).imgAfter
        = E.gaussian_filter (effective_blur st blur_ij) img
    ∧ (E.gaussian_filter (effective_blur st blur_ij) img ≠ img →
        (ijcam_to_knmslm E st img out0 blur_ij order).imgAfter ≠ img) := by
  have h1 : (ijcam_to_knmslm E st img out0 blur_ij order).imgAfter
      = E.gaussian_filter (effective_blur st blur_ij) img := by
    rw [ijcam_imgAfter_eq E st img out0 blur_ij order c cal hc hcal]
    unfold blurred
    rw [if_pos hb]
  exact ⟨h1, fun hne => h1 ▸ hne⟩

/-- Witness for C10: blur flag 1 on the concrete calibrated instance. -/
theorem ijcam_to_knmslm_blurs_input_in_place_witness :
    (ijcam_to_knmslm wE wStBlur wFrame (fun _ => 0) none 3).imgAfter
        = wE.gaussian_filter (effective_blur wStBlur none) wFrame
    ∧ (wE.gaussian_filter (effective_blur wStBlur none) wFrame ≠ wFrame →
        (ijcam_to_knmslm wE wStBlur wFrame (fun _ => 0) none 3).imgAfter ≠ wFrame) :=
  ijcam_to_knmslm_blurs_input_in_place wE wStBlur wFrame _ none 3 wFslm wCal rfl rfl
    (by norm_num [effective_blur, wStBlur, wStCal])

/-- C9: when the resampled image's total power is zero, `update_target`'s
inner `ijcam_to_knmslm` call has already multiplied the resampled image
by `1 / norm` with `norm = 0` and written it into the caller-provided
output buffer — the persistent `self.target` — when the exception is
raised (line 196 precedes line 198): the failure is not atomic, the
target buffer is left holding the junk write rather than its prior
contents, and the requested weight reset is skipped. -/
theorem update_target_zero_power_not_atomic (E : Externals ιc ιk)
    (st : FeedbackHologram ιc ιk ιs) (new_target : ιc → ℝ)
    (c : FourierSLM ιs) (cal : FourierCalibration)
    (hc : st.cameraslm = some c) (hcal : c.fourier_calibration = some cal)
    (hzero : holNorm (resampled E st cal new_target none 0) = 0)
    (hchg : (fun i => resampled E st cal new_target none 0 i *
        (1 / holNorm (resampled E st cal new_target none 0))) ≠ st.target) :
    (update_target E st new_target true).2 = some HoloError.outOfRangeError
    ∧ (update_target E st new_target true).1.target
        = (fun i => resampled E st cal new_target none 0 i *
            (1 / holNorm (resampled E st cal new_target none 0)))
    ∧ (update_target E st new_target true).1.target ≠ st.target
    ∧ (update_target E st new_target true).1.weights = st.weights := by
  have herr : (ijcam_to_knmslm E st new_target st.target none 0).err
      = some HoloError.outOfRangeError := by
    rw [ijcam_err_eq E st new_target st.target none 0 c cal hc hcal, if_pos hzero]
  have hout : (ijcam_to_knmslm E st new_target st.target none 0).out
      = fun i => resampled E st cal new_target none 0 i *
          (1 / holNorm (resampled E st cal new_target none 0)) :=
    ijcam_out_eq E st new_target st.target none 0 c cal hc hcal
  have hu : update_target E st new_target true
      = ({ st with target := (ijcam_to_knmslm E st new_target st.target none 0).out },
          some HoloError.outOfRangeError) := by
    simp only [update_target]
    rw [herr]
  rw [hu]
  refine ⟨rfl, hout, ?_, rfl⟩
  simpa [hout] using hchg

/-- `resampled` of the all-zero image on the concrete instance is zero. -/
theorem wZero_resampled :
    resampled wE wStCal wCal (fun _ => (0 : ℝ)) none 0 = fun _ => 0 := by
  funext i
  simp [resampled, wE, blurred, effective_blur, wStCal]

/-- `holNorm` of the zero image is zero. -/
theorem holNorm_zero_fun : holNorm (fun _ : Fin 2 => (0 : ℝ)) = 0 := by
  simp [holNorm]

/-- Witness for C9: an all-zero camera-basis target resamples to zero
power; the concrete instance's target buffer held ones beforehand. -/
theorem update_target_zero_power_not_atomic_witness :
    (update_target wE wStCal (fun _ => 0) true).2 = some HoloError.outOfRangeError
    ∧ (update_target wE wStCal (fun _ => 0) true).1.target
        = (fun i => resampled wE wStCal wCal (fun _ => 0) none 0 i *
            (1 / holNorm (resampled wE wStCal wCal (fun _ => 0) none 0)))
    ∧ (update_target wE wStCal (fun _ => 0) true).1.target ≠ wStCal.target
    ∧ (update_target wE wStCal (fun _ => 0) true).1.weights = wStCal.weights :=
  update_target_zero_power_not_atomic wE wStCal (fun _ => 0) wFslm wCal rfl rfl
    (by rw [wZero_resampled, holNorm_zero_fun])
    (by
      rw [wZero_resampled]
      intro h
      have h0 := congrFun h 0
      simp [wStCal] at h0)

/-- The concrete instance with an unrecognized feedback mode. -/
noncomputable def wStBadMode : FeedbackHologram (Fin 2) (Fin 2) (Fin 1) :=
  { wStCal with flags_feedback := "nearest" }

/-- C2 counterexample: with the unrecognized feedback mode `"nearest"`,
`_update_weights` raises no error at all and leaves the state untouched —
the unrecognized mode is silently ignored, not surfaced. -/
theorem update_weights_unrecognized_mode_counterexample :
    (_update_weights wE wStBadMode wFrame).2.2 = none
    ∧ (_update_weights wE wStBadMode wFrame).1 = wStBadMode
    ∧ (_update_weights wE wStBadMode wFrame).2.1 = 0 := by
  refine ⟨?_, ?_, ?_⟩ <;> rfl

/-- C2 (amended): for every feedback-mode value other than
`"computational"` and `"experimental"`, `_update_weights` falls through
both branches of its dispatch and returns silently: no weight update, no
measurement, and no error (lines 289–293 have no `else` clause). -/
theorem update_weights_unrecognized_mode_silent (E : Externals ιc ιk)
    (st : FeedbackHologram ιc ιk ιs) (frame : ιc → ℝ)
    (h1 : st.flags_feedback ≠ "computational")
    (h2 : st.flags_feedback ≠ "experimental") :
    _update_weights E st frame = (st, 0, none) := by
  simp only [_update_weights]
  rw [if_neg h1, if_neg h2]

/-- Witness for C2's amended claim at the concrete `"nearest"` mode. -/
theorem update_weights_unrecognized_mode_silent_witness :
    _update_weights wE wStBadMode wFrame = (wStBadMode, 0, none) :=
  update_weights_unrecognized_mode_silent wE wStBadMode wFrame
    (by decide) (by decide)

/-- C8: `update_target` runs the coordinate transform with interpolation
order forced to 0 (the literal `order=0` of line 245) with the persistent
computational-basis target buffer `self.target` as the output buffer, the
buffer receiving the transform's output in place; and on a successful
transform it reinitializes the weight array exactly when `reset_weights`
is true. -/
theorem update_target_order_zero_in_place (E : Externals ιc ιk)
    (st : FeedbackHologram ιc ιk ιs) (new_target : ιc → ℝ) (b : Bool) :
    (update_target E st new_target b).1.target
        = (ijcam_to_knmslm E st new_target st.target none 0).out
    ∧ ((ijcam_to_knmslm E st new_target st.target none 0).err = none →
        (update_target E st new_target b).1.weights
          = if b then
              E.reset_weights (ijcam_to_knmslm E st new_target st.target none 0).out
            else st.weights) := by
  simp only [update_target]
  cases herr : (ijcam_to_knmslm E st new_target st.target none 0).err with
  | none =>
    cases b <;> simp
  | some e =>
    refine ⟨rfl, ?_⟩
    intro hnone
    exact absurd hnone (by simp)

/-! ## Measurement-cache lemmas -/

/-- A `measure` call on a populated camera-basis cache performs no capture. -/
theorem measure_captures_some (E : Externals ιc ιk) (st : FeedbackHologram ιc ιk ιs)
    (frame : ιc → ℝ) (basis : String) (img : ιc → ℝ) (h : st.img_ij = some img) :
    (measure E st frame basis).2.1 = 0 := by
  simp only [measure, h]
  split
  · split
    · split <;> rfl
    · rfl
  · rfl

/-- A `measure` call on an empty camera-basis cache performs one capture. -/
theorem measure_captures_none (E : Externals ιc ιk) (st : FeedbackHologram ιc ιk ιs)
    (frame : ιc → ℝ) (basis : String) (h : st.img_ij = none) :
    (measure E st frame basis).2.1 = 1 := by
  simp only [measure, h]
  split
  · split <;> rfl
  · rfl

/-- After any `measure` call the camera-basis cache is populated. -/
theorem measure_img_ij_populated (E : Externals ιc ιk)
    (st : FeedbackHologram ιc ιk ιs) (frame : ιc → ℝ) (basis : String) :
    (measure E st frame basis).1.img_ij ≠ none := by
  cases h : st.img_ij with
  | none =>
    simp only [measure, h]
    split
    · split <;> simp
    · simp
  | some img =>
    simp only [measure, h]
    split
    · split
      · split <;> simp [h]
      · simp [h]
    · simp [h]

/-- `measure` with basis `"ij"` on a populated cache is a no-op. -/
theorem measure_ij_populated_noop (E : Externals ιc ιk)
    (st : FeedbackHologram ιc ιk ιs) (frame : ιc → ℝ) (img : ιc → ℝ)
    (h : st.img_ij = some img) :
    measure E st frame "ij" = (st, 0, none) := by
  simp only [measure, h]
  rfl

/-- A run of `measure` calls starting from a populated camera-basis cache
performs no capture at all. -/
theorem measure_run_no_capture (E : Externals ιc ιk) :
    ∀ (calls : List (String × (ιc → ℝ))) (st : FeedbackHologram ιc ιk ιs),
      st.img_ij ≠ none → (measure_run E st calls).2 = 0 := by
  intro calls
  induction calls with
  | nil => intro st _; rfl
  | cons head tail ih =>
    intro st h
    obtain ⟨basis, frame⟩ := head
    obtain ⟨img, himg⟩ := Option.ne_none_iff_exists'.mp h
    have h1 := measure_captures_some E st frame basis img himg
    have h2 := measure_img_ij_populated E st frame basis
    simp only [measure_run]
    rw [h1, ih _ h2]

/-- Any run of `measure` calls performs at most one capture. -/
theorem measure_run_le_one (E : Externals ιc ιk) :
    ∀ (calls : List (String × (ιc → ℝ))) (st : FeedbackHologram ιc ιk ιs),
      (measure_run E st calls).2 ≤ 1 := by
  intro calls
  induction calls with
  | nil => intro st; norm_num [measure_run]
  | cons head tail ih =>
    intro st
    obtain ⟨basis, frame⟩ := head
    simp only [measure_run]
    cases h : st.img_ij with
    | none =>
      have h1 := measure_captures_none E st frame basis h
      have h2 := measure_img_ij_populated E st frame basis
      have h3 := measure_run_no_capture E tail _ h2
      rw [h1, h3]
    | some img =>
      have h1 := measure_captures_some E st frame basis img h
      rw [h1, Nat.zero_add]
      exact ih _

/-- C4: over any sequence of `measure` calls with no external cache
invalidation in between, at most one device write / camera capture is
performed; once the camera-basis cache `img_ij` is populated a run of
further calls performs zero captures; and `measure("ij")` on a populated
cache is a no-op. -/
theorem measure_single_capture (E : Externals ιc ιk)
    (st st2 : FeedbackHologram ιc ιk ιs)
    (calls calls2 : List (String × (ιc → ℝ))) (frame : ιc → ℝ) (img : ιc → ℝ)
    (h : st2.img_ij = some img) :
    (measure_run E st calls).2 ≤ 1
    ∧ (measure_run E st2 calls2).2 = 0
    ∧ measure E st2 frame "ij" = (st2, 0, none) :=
  ⟨measure_run_le_one E calls st,
   measure_run_no_capture E calls2 st2 (by simp [h]),
   measure_ij_populated_noop E st2 frame img h⟩

/-- The concrete instance with a populated camera-basis cache. -/
noncomputable def wStImg : FeedbackHologram (Fin 2) (Fin 2) (Fin 1) :=
  { wStCal with img_ij := some wFrame }

/-- Witness for C4 on the concrete populated instance. -/
theorem measure_single_capture_witness :
    (measure_run wE wStImg [("knm", wFrame), ("ij", wFrame)]).2 ≤ 1
    ∧ (measure_run wE wStImg [("ij", wFrame)]).2 = 0
    ∧ measure wE wStImg wFrame "ij" = (wStImg, 0, none) :=
  measure_single_capture wE wStImg wStImg [("knm", wFrame), ("ij", wFrame)]
    [("ij", wFrame)] wFrame wFrame rfl

/-- C5: after any `measure` call the computational-basis cache is never
populated while the camera-basis cache is absent (the call populates
`img_ij` on every path); and a fresh capture requested with basis `"ij"`
sets `img_knm` to absent rather than leaving stale data (line 234). -/
theorem measure_cache_invariant (E : Externals ιc ιk)
    (st st2 : FeedbackHologram ιc ιk ιs) (frame frame2 : ιc → ℝ) (basis : String)
    (h : st2.img_ij = none) :
    ((measure E st frame basis).1.img_knm ≠ none →
        (measure E st frame basis).1.img_ij ≠ none)
    ∧ (measure E st2 frame2 "ij").1.img_knm = none := by
  constructor
  · intro _
    exact measure_img_ij_populated E st frame basis
  · simp only [measure, h]
    rfl

/-- Witness for C5 on the concrete empty-cache instance. -/
theorem measure_cache_invariant_witness :
    ((measure wE wStCal wFrame "knm").1.img_knm ≠ none →
        (measure wE wStCal wFrame "knm").1.img_ij ≠ none)
    ∧ (measure wE wStCal wFrame "ij").1.img_knm = none :=
  measure_cache_invariant wE wStCal wStCal wFrame wFrame "knm" rfl

/-- C3: at construction the `cameraslm` argument is resolved by trying
the composite-controller interpretation first (even when the bare-device
interpretation would also succeed), falling back to the bare device while
clearing the composite reference (feedback disabled), and failing with
`ConfigurationError` when neither interpretation applies; a composite
controller whose calibration is absent yields no exception but a
capability-degraded state in which the corner points and the camera
shape are null. -/
theorem init_device_binding (E : Externals ιc ιk) (shape : ℕ × ℕ)
    (tij : Option (ιc → ℝ)) (amp0 : Option (ιs → ℝ)) (t0 w0 aff : ιk → ℝ)
    (fblur : Option ℝ) (fb : String) :
    (∀ (fslm : FourierSLM ιs) (aslm : Option (SLMDevice ιs)),
        fslm.fourier_calibration = none →
        init E shape tij (some ⟨some fslm, aslm⟩) amp0 t0 w0 aff fblur fb
          = .ok { cameraslm := some fslm
                  shape := shape
                  amp := some fslm.slm.sourceAmplitude
                  slm_shape := some fslm.slm.shape
                  img_ij := none
                  img_knm := none
                  target := t0
                  target_ij := tij
                  weights := w0
                  cam_points := none
                  cam_shape := none
                  flags_blur_ij := fblur
                  flags_feedback := fb
                  amp_ff := aff })
    ∧ (∀ (s : SLMDevice ιs),
        init E shape tij (some ⟨none, some s⟩) amp0 t0 w0 aff fblur fb
          = .ok { cameraslm := none
                  shape := shape
                  amp := some s.sourceAmplitude
                  slm_shape := some s.shape
                  img_ij := none
                  img_knm := none
                  target := t0
                  target_ij := tij
                  weights := w0
                  cam_points := none
                  cam_shape := none
                  flags_blur_ij := fblur
                  flags_feedback := fb
                  amp_ff := aff })
    ∧ init E shape tij (some (⟨none, none⟩ : BoundRef ιs)) amp0 t0 w0 aff fblur fb
        = .error HoloError.configurationError := by
  refine ⟨?_, ?_, ?_⟩
  · intro fslm aslm hcal
    simp only [init, hcal]
  · intro s
    rfl
  · rfl

/-! ## Basis-consistency lemmas (C6) -/

/-- `ijcam_to_knmslm` reads none of the cache fields: updating `img_ij`
and `img_knm` does not change its result (structure eta). -/
theorem ijcam_cache_independent (E : Externals ιc ιk)
    (st : FeedbackHologram ιc ιk ιs) (u : Option (ιc → ℝ)) (v : Option (ιk → ℝ))
    (img : ιc → ℝ) (out0 : ιk → ℝ) (blur_ij : Option ℝ) (order : ℕ) :
    ijcam_to_knmslm E { st with img_ij := u, img_knm := v } img out0 blur_ij order
      = ijcam_to_knmslm E st img out0 blur_ij order := rfl

/-- A successful transform implies a calibrated instance. -/
theorem ijcam_err_none_calibrated (E : Externals ιc ιk)
    (st : FeedbackHologram ιc ιk ιs) (img : ιc → ℝ) (out0 : ιk → ℝ)
    (blur_ij : Option ℝ) (order : ℕ)
    (h : (ijcam_to_knmslm E st img out0 blur_ij order).err = none) :
    ∃ c cal, st.cameraslm = some c ∧ c.fourier_calibration = some cal := by
  cases hc : st.cameraslm with
  | none =>
    rw [ijcam_to_knmslm_not_calibrated E st img out0 blur_ij order (Or.inl hc)] at h
    exact absurd h (by simp)
  | some c =>
    cases hcal : c.fourier_calibration with
    | none =>
      rw [ijcam_to_knmslm_not_calibrated E st img out0 blur_ij order
        (Or.inr ⟨c, hc, hcal⟩)] at h
      exact absurd h (by simp)
    | some cal => exact ⟨c, cal, rfl, hcal⟩

/-- The fresh-capture `"knm"` path of `measure` on a successful transform. -/
theorem measure_fresh_knm_ok (E : Externals ιc ιk)
    (st : FeedbackHologram ιc ιk ιs) (frame : ιc → ℝ)
    (him : st.img_ij = none) (hpre : st.img_knm = none)
    (herr : (ijcam_to_knmslm E st frame (fun _ => 0) none 3).err = none) :
    measure E st frame "knm"
      = ({ st with
            img_ij := some (fun i =>
              Real.sqrt ((ijcam_to_knmslm E st frame (fun _ => 0) none 3).imgAfter i)),
            img_knm := some (fun i =>
              Real.sqrt ((ijcam_to_knmslm E st frame (fun _ => 0) none 3).out i)) },
          1, none) := by
  simp only [measure, him, hpre, Option.getD_none]
  rw [if_pos trivial, herr]

/-- The cached-recovery `"knm"` path of `measure` on a successful transform. -/
theorem measure_recovery_knm_ok (E : Externals ιc ιk)
    (st : FeedbackHologram ιc ιk ιs) (frame : ιc → ℝ) (img : ιc → ℝ)
    (him : st.img_ij = some img) (hpre : st.img_knm = none)
    (herr : (ijcam_to_knmslm E st (fun i => (img i) ^ 2) (fun _ => 0) none 3).err
      = none) :
    measure E st frame "knm"
      = ({ st with
            img_knm := some (fun i =>
              Real.sqrt ((ijcam_to_knmslm E st (fun i => (img i) ^ 2)
                (fun _ => 0) none 3).out i)) },
          0, none) := by
  simp only [measure, him, hpre]
  rw [if_pos trivial, herr]

/-- C6 (amended): after `measure("knm")` fills the computational-basis
cache (absent before the call) and completes successfully, squaring the
cached camera-basis amplitude and independently running the coordinate
transform followed by a square root reproduces the cached
computational-basis image exactly — provided the effective blur radius is
not positive, or the cache was filled through the cached-recovery path.
(On the fresh-capture path with a positive blur radius the in-place blur
has already been applied to the cached `img_ij`, so the independent
re-run blurs a second time and need not agree; see the counterexample.) -/
theorem measure_knm_basis_consistency (E : Externals ιc ιk)
    (st : FeedbackHologram ιc ιk ιs) (frame : ιc → ℝ) (a : ιc → ℝ) (k : ιk → ℝ)
    (hframe : ∀ i, 0 ≤ frame i)
    (hpre : st.img_knm = none)
    (hpath : ¬ 0 < effective_blur st (none : Option ℝ) ∨ st.img_ij ≠ none)
    (hok : (measure E st frame "knm").2.2 = none)
    (ha : (measure E st frame "knm").1.img_ij = some a)
    (hk : (measure E st frame "knm").1.img_knm = some k) :
    (fun i => Real.sqrt ((ijcam_to_knmslm E (measure E st frame "knm").1
        (fun j => (a j) ^ 2) (fun _ => 0) none 3).out i)) = k := by
  cases him : st.img_ij with
  | some img =>
    -- Cached-recovery path: the cache entry is the very recomputation.
    have herr : (ijcam_to_knmslm E st (fun i => (img i) ^ 2)
        (fun _ => 0) none 3).err = none := by
      cases herr2 : (ijcam_to_knmslm E st (fun i => (img i) ^ 2)
          (fun _ => 0) none 3).err with
      | none => rfl
      | some e =>
        have h4 : (measure E st frame "knm").2.2 = some e := by
          simp only [measure, him, hpre]
          rw [if_pos trivial, herr2]
        rw [hok] at h4
        exact absurd h4 (by simp)
    have hm := measure_recovery_knm_ok E st frame img him hpre herr
    rw [hm] at ha hk
    have haa : st.img_ij = some a := ha
    rw [him] at haa
    injection haa with haa2
    subst haa2
    rw [hm]
    exact Option.some_inj.mp hk
  | none =>
    -- Fresh-capture path: needs a non-positive blur radius.
    have hblur : ¬ 0 < effective_blur st (none : Option ℝ) := by
      rcases hpath with hb | hne
      · exact hb
      · exact absurd him hne
    have herr : (ijcam_to_knmslm E st frame (fun _ => 0) none 3).err = none := by
      cases herr2 : (ijcam_to_knmslm E st frame (fun _ => 0) none 3).err with
      | none => rfl
      | some e =>
        have h4 : (measure E st frame "knm").2.2 = some e := by
          simp only [measure, him, hpre, Option.getD_none]
          rw [if_pos trivial, herr2]
        rw [hok] at h4
        exact absurd h4 (by simp)
    have hm := measure_fresh_knm_ok E st frame him hpre herr
    rw [hm] at ha hk
    have haa : (some (fun i =>
        Real.sqrt ((ijcam_to_knmslm E st frame (fun _ => 0) none 3).imgAfter i))
          : Option (ιc → ℝ)) = some a := ha
    injection haa with haa2
    have himg : (ijcam_to_knmslm E st frame (fun _ => 0) none 3).imgAfter
        = frame := by
      obtain ⟨c, cal, hc, hcal⟩ :=
        ijcam_err_none_calibrated E st frame (fun _ => 0) none 3 herr
      rw [ijcam_imgAfter_eq E st frame (fun _ => 0) none 3 c cal hc hcal]
      unfold blurred
      rw [if_neg hblur]
    rw [himg] at haa2
    have hsq : (fun j => (a j) ^ 2) = frame := by
      funext j
      rw [← haa2]
      show (Real.sqrt (frame j)) ^ 2 = frame j
      exact Real.sq_sqrt (hframe j)
    rw [hm, hsq]
    exact Option.some_inj.mp hk

/-! ## Concrete evaluations for the C6 witness and counterexample -/

theorem wFrame_resampled : resampled wE wStCal wCal wFrame none 3 = wFrame := by
  funext i
  fin_cases i <;>
    norm_num [resampled, wE, blurred, effective_blur, wStCal, wFrame]

theorem wFrame_norm : holNorm wFrame = 1 := by
  unfold holNorm wFrame
  rw [Fin.sum_univ_two]
  norm_num

theorem wFrame_err :
    (ijcam_to_knmslm wE wStCal wFrame (fun _ => 0) none 3).err = none := by
  rw [ijcam_err_eq wE wStCal wFrame (fun _ => 0) none 3 wFslm wCal rfl rfl,
      wFrame_resampled, wFrame_norm]
  norm_num

theorem wMeasureCal :
    measure wE wStCal wFrame "knm"
      = ({ wStCal with
            img_ij := some (fun i => Real.sqrt
              ((ijcam_to_knmslm wE wStCal wFrame (fun _ => 0) none 3).imgAfter i)),
            img_knm := some (fun i => Real.sqrt
              ((ijcam_to_knmslm wE wStCal wFrame (fun _ => 0) none 3).out i)) },
          1, none) :=
  measure_fresh_knm_ok wE wStCal wFrame rfl rfl wFrame_err

/-- Witness for C6's amended claim: the no-blur fresh capture on the
concrete instance. -/
theorem measure_knm_basis_consistency_witness :
    (fun i => Real.sqrt ((ijcam_to_knmslm wE (measure wE wStCal wFrame "knm").1
        (fun j => ((fun i2 => Real.sqrt ((ijcam_to_knmslm wE wStCal wFrame
          (fun _ => 0) none 3).imgAfter i2)) j) ^ 2) (fun _ => 0) none 3).out i))
      = fun i => Real.sqrt
          ((ijcam_to_knmslm wE wStCal wFrame (fun _ => 0) none 3).out i) :=
  measure_knm_basis_consistency wE wStCal wFrame
    (fun i2 => Real.sqrt
      ((ijcam_to_knmslm wE wStCal wFrame (fun _ => 0) none 3).imgAfter i2))
    (fun i => Real.sqrt ((ijcam_to_knmslm wE wStCal wFrame (fun _ => 0) none 3).out i))
    (by
      intro i
      simp only [wFrame]
      split <;> norm_num)
    rfl
    (Or.inl (by norm_num [effective_blur, wStCal]))
    (by rw [wMeasureCal])
    (by rw [wMeasureCal])
    (by rw [wMeasureCal])

theorem wB1_blurred :
    blurred wE wStBlur wFrame none = fun i => if i = 0 then (1 : ℝ) else 1 / 2 := by
  funext i
  fin_cases i <;>
    norm_num [blurred, effective_blur, wE, wStBlur, wStCal, wFrame]

theorem wB1_resampled :
    resampled wE wStBlur wCal wFrame none 3
      = fun i => if i = 0 then (1 : ℝ) else 1 / 2 := by
  funext i
  fin_cases i <;>
    norm_num [resampled, wE, blurred, effective_blur, wStBlur, wStCal, wFrame]

theorem wB1_norm :
    holNorm (fun i : Fin 2 => if i = 0 then (1 : ℝ) else 1 / 2)
      = Real.sqrt (5 / 4) := by
  unfold holNorm
  rw [Fin.sum_univ_two]
  norm_num

theorem wSqrtFiveFour_pos : 0 < Real.sqrt (5 / 4) :=
  Real.sqrt_pos.mpr (by norm_num)

theorem wBlur_err :
    (ijcam_to_knmslm wE wStBlur wFrame (fun _ => 0) none 3).err = none := by
  rw [ijcam_err_eq wE wStBlur wFrame (fun _ => 0) none 3 wFslm wCal rfl rfl,
      wB1_resampled, wB1_norm]
  rw [if_neg (ne_of_gt wSqrtFiveFour_pos)]

theorem wMeasureBlur :
    measure wE wStBlur wFrame "knm"
      = ({ wStBlur with
            img_ij := some (fun i => Real.sqrt
              ((ijcam_to_knmslm wE wStBlur wFrame (fun _ => 0) none 3).imgAfter i)),
            img_knm := some (fun i => Real.sqrt
              ((ijcam_to_knmslm wE wStBlur wFrame (fun _ => 0) none 3).out i)) },
          1, none) :=
  measure_fresh_knm_ok wE wStBlur wFrame rfl rfl wBlur_err

theorem wBlur_imgAfter :
    (ijcam_to_knmslm wE wStBlur wFrame (fun _ => 0) none 3).imgAfter
      = fun i => if i = 0 then (1 : ℝ) else 1 / 2 := by
  rw [ijcam_imgAfter_eq wE wStBlur wFrame (fun _ => 0) none 3 wFslm wCal rfl rfl,
      wB1_blurred]

theorem wBlur_out :
    (ijcam_to_knmslm wE wStBlur wFrame (fun _ => 0) none 3).out
      = fun i => (if i = 0 then (1 : ℝ) else 1 / 2) * (1 / Real.sqrt (5 / 4)) := by
  rw [ijcam_out_eq wE wStBlur wFrame (fun _ => 0) none 3 wFslm wCal rfl rfl,
      wB1_resampled, wB1_norm]

theorem wA_sq :
    (fun j : Fin 2 => (Real.sqrt (if j = 0 then (1 : ℝ) else 1 / 2)) ^ 2)
      = fun j => if j = 0 then (1 : ℝ) else 1 / 2 := by
  funext j
  apply Real.sq_sqrt
  split <;> norm_num

theorem wB2_blurred :
    blurred wE wStBlur (fun j : Fin 2 => if j = 0 then (1 : ℝ) else 1 / 2) none
      = fun i => if i = 0 then (1 : ℝ) else 3 / 4 := by
  funext i
  fin_cases i <;>
    norm_num [blurred, effective_blur, wE, wStBlur, wStCal]

theorem wB2_resampled :
    resampled wE wStBlur wCal (fun j : Fin 2 => if j = 0 then (1 : ℝ) else 1 / 2)
        none 3
      = fun i => if i = 0 then (1 : ℝ) else 3 / 4 := by
  funext i
  fin_cases i <;>
    norm_num [resampled, wE, blurred, effective_blur, wStBlur, wStCal]

theorem wB2_norm :
    holNorm (fun i : Fin 2 => if i = 0 then (1 : ℝ) else 3 / 4) = 5 / 4 := by
  unfold holNorm
  rw [Fin.sum_univ_two]
  have h : ((if (0 : Fin 2) = 0 then (1 : ℝ) else 3 / 4) ^ 2
      + (if (1 : Fin 2) = 0 then (1 : ℝ) else 3 / 4) ^ 2) = (5 / 4) ^ 2 := by
    norm_num
  rw [h, Real.sqrt_sq (by norm_num)]

theorem wBlur2_out :
    (ijcam_to_knmslm wE wStBlur (fun j : Fin 2 => if j = 0 then (1 : ℝ) else 1 / 2)
        (fun _ => 0) none 3).out
      = fun i => (if i = 0 then (1 : ℝ) else 3 / 4) * (1 / (5 / 4)) := by
  rw [ijcam_out_eq wE wStBlur _ (fun _ => 0) none 3 wFslm wCal rfl rfl,
      wB2_resampled, wB2_norm]

/-- C6 counterexample: with a `"blur_ij"` flag of 1 the fresh-capture
path of `measure("knm")` succeeds and fills both caches, but squaring
the cached camera-basis amplitude and independently re-running the
transform followed by a square root does not reproduce the cached
computational-basis image: the cached `img_ij` was already blurred in
place by the capture-time transform, so the re-run blurs a second time. -/
theorem measure_knm_basis_consistency_counterexample :
    (measure wE wStBlur wFrame "knm").2.2 = none
    ∧ ∃ a k, (measure wE wStBlur wFrame "knm").1.img_ij = some a
        ∧ (measure wE wStBlur wFrame "knm").1.img_knm = some k
        ∧ (fun i => Real.sqrt ((ijcam_to_knmslm wE (measure wE wStBlur wFrame "knm").1
            (fun j => (a j) ^ 2) (fun _ => 0) none 3).out i)) ≠ k := by
  refine ⟨by rw [wMeasureBlur], ?_⟩
  refine ⟨fun i => Real.sqrt
      ((ijcam_to_knmslm wE wStBlur wFrame (fun _ => 0) none 3).imgAfter i),
    fun i => Real.sqrt
      ((ijcam_to_knmslm wE wStBlur wFrame (fun _ => 0) none 3).out i),
    by rw [wMeasureBlur], by rw [wMeasureBlur], ?_⟩
  have hcong : ∀ X : Fin 2 → ℝ,
      ijcam_to_knmslm wE (measure wE wStBlur wFrame "knm").1 X (fun _ => 0) none 3
        = ijcam_to_knmslm wE wStBlur X (fun _ => 0) none 3 := by
    intro X
    rw [wMeasureBlur]
    rfl
  have hA : (fun j : Fin 2 => ((fun i2 => Real.sqrt
      ((ijcam_to_knmslm wE wStBlur wFrame (fun _ => 0) none 3).imgAfter i2)) j) ^ 2)
        = fun j : Fin 2 => if j = 0 then (1 : ℝ) else 1 / 2 := by
    simp only [wBlur_imgAfter]
    exact wA_sq
  intro heq
  have h0 := congrFun heq 0
  simp only [hA, hcong, wBlur2_out, wBlur_out] at h0
  rw [if_pos trivial, if_pos trivial, one_mul, one_mul] at h0
  have h1 : (1 : ℝ) / (5 / 4) = 1 / Real.sqrt (5 / 4) :=
    (Real.sqrt_inj (by norm_num) (by positivity)).mp h0
  have h2 : Real.sqrt (5 / 4) = 5 / 4 := by
    calc Real.sqrt (5 / 4) = 1 / (1 / Real.sqrt (5 / 4)) := (one_div_one_div _).symm
    _ = 1 / (1 / (5 / 4)) := by rw [← h1]
    _ = 5 / 4 := by norm_num
  have h3 := Real.sq_sqrt (show (0 : ℝ) ≤ 5 / 4 by norm_num)
  rw [h2] at h3
  norm_num at h3

end Slmsuite
